import Mathlib

/-!
Verification of the jq-style streaming JSON query engine
(`src/jq/jq_types.*`, `jq_bytecode.hpp`, `jq_builtins.cpp`, `jq_compiler.cpp`,
`jq_executor.cpp`, `jq_engine.cpp`) against its natural-language specification.

Modelling conventions:
* `JvValue` mirrors the C++ `jq::JvValue` variant.  Numbers are modelled as
  exact rationals (`Rat`); the claims settled here do not depend on IEEE-754
  rounding, and the one claim that does (number formatting) is treated
  separately.  Object payloads are the key/value sequence stored by
  `std::map<std::string, JvValuePtr>`, i.e. an association list kept in
  ascending key order; sortedness is carried as an explicit hypothesis where
  a theorem needs it.
* C++ `std::shared_ptr<JvValue>` may be null; inside the engine every value
  that is ever produced or consumed is non-null (all constructors return
  fresh values and `Engine::run_streaming` feeds a non-null input), so the
  current value and outputs are modelled as plain `JvValue`.  The one place
  where nullness of the pointer is observable — `JvValue::from_string` — is
  modelled with an explicit `Option`.
* Fallible C++ functions of shape `bool f(..., std::string &err)` are
  modelled as `Except String` results.
-/

namespace JQ

/-- The `jq::JvValue` tagged union (`jq_types.hpp`): null, boolean, number,
string, array, object.  The object payload lists the entries of the C++
`std::map` in its iteration (ascending key) order. -/
inductive JvValue where
  | null
  | boolean (b : Bool)
  | number (n : Rat)
  | str (s : String)
  | arr (a : List JvValue)
  | obj (o : List (String × JvValue))

/-- `JvValue::is_null`. -/
def JvValue.is_null : JvValue → Bool
  | .null => true
  | _ => false

/-- `JvValue::is_bool`. -/
def JvValue.is_bool : JvValue → Bool
  | .boolean _ => true
  | _ => false

/-- `JvValue::is_number`. -/
def JvValue.is_number : JvValue → Bool
  | .number _ => true
  | _ => false

/-- `JvValue::is_string`. -/
def JvValue.is_string : JvValue → Bool
  | .str _ => true
  | _ => false

/-- `JvValue::is_array`. -/
def JvValue.is_array : JvValue → Bool
  | .arr _ => true
  | _ => false

/-- `JvValue::is_object`. -/
def JvValue.is_object : JvValue → Bool
  | .obj _ => true
  | _ => false

/-- The `n` field of the C++ value (0.0 unless the value is a number). -/
def JvValue.num_val : JvValue → Rat
  | .number n => n
  | _ => 0

/-- `JvValue::array_index`: element `i` of an array, `Null` when the value is
not an array or the index is out of range. -/
def JvValue.array_index (v : JvValue) (i : Nat) : JvValue :=
  match v with
  | .arr a => a.getD i JvValue.null
  | _ => JvValue.null

/-- `JvValue::object_get`: `std::map::find` on the object entries, `Null` when
the value is not an object or the key is missing. -/
def JvValue.object_get (v : JvValue) (key : String) : JvValue :=
  match v with
  | .obj o =>
    match o.lookup key with
    | some x => x
    | none => JvValue.null
  | _ => JvValue.null

/-- Truncation of a number toward zero, the effect of the C++
`static_cast<long long>` / `static_cast<size_t>` casts on an in-range double
(out-of-range casts are undefined behaviour in the source and are not relied
on by any claim). -/
def rat_trunc (q : Rat) : Int := q.num / (q.den : Int)

/-- The `static_cast<size_t>(idx)` in the executor's `GET_INDEX_NUM` case;
a negative index would be undefined behaviour in C++, modelled as 0. -/
def rat_to_size_t (q : Rat) : Nat := (rat_trunc q).toNat

/-- The escaping of one character in `JvValue::to_string`'s string case:
`"`, `\`, LF, CR, TAB are escaped, everything else passes through. -/
def escape_char (c : Char) : String :=
  match c with
  | '\"' => "\\\""
  | '\\' => "\\\\"
  | '\n' => "\\n"
  | '\r' => "\\r"
  | '\t' => "\\t"
  | _ => String.singleton c

/-- The character loop of `JvValue::to_string`'s string case. -/
def escape_string (s : String) : String :=
  s.data.foldl (fun acc c => acc ++ escape_char c) ""

/-- The non-integer branch of number formatting (`std::ostringstream << n`).
The C++ streams an IEEE-754 double with the platform's default formatting;
that depends on the binary floating-point representation and is not modelled
bit-exactly here (no settled claim depends on this branch). -/
def format_double (q : Rat) : String := toString q

mutual
/-- `JvValue::to_string` (`jq_types.cpp`): the JSON serialization.  A number
with `n == floor(n)` (for a rational: denominator 1) is printed as
`std::to_string((long long)n)`, i.e. as its integer; object keys are emitted
unescaped, exactly as in the source. -/
def JvValue.to_string : JvValue → String
  | .null => "null"
  | .boolean b => if b then "true" else "false"
  | .number n => if n.den = 1 then toString n.num else format_double n
  | .str s => "\"" ++ escape_string s ++ "\""
  | .arr a => "[" ++ String.intercalate "," (to_string_list a) ++ "]"
  | .obj o => "\x7b" ++ String.intercalate "," (to_string_entries o) ++ "\x7d"

/-- Serialization of the elements of an array, in order. -/
def to_string_list : List JvValue → List String
  | [] => []
  | v :: rest => v.to_string :: to_string_list rest

/-- Serialization of the entries of an object, in stored (sorted-key) order;
each entry is `"key":value` with the raw key. -/
def to_string_entries : List (String × JvValue) → List String
  | [] => []
  | (k, v) :: rest => ("\"" ++ k ++ "\":" ++ v.to_string) :: to_string_entries rest
end

/-- `builtins::keys_builtin`: object → the key list (in the map's ascending
order) as one array output; array → `[0 .. length)`; anything else errors.
The C++ null-pointer guard (`keys: null input`) is unreachable here because
values are modelled as non-null. -/
def keys_builtin (input : JvValue) : Except String (List JvValue) :=
  match input with
  | .obj o => .ok [.arr (o.map (fun kv => JvValue.str kv.1))]
  | .arr a => .ok [.arr ((List.range a.length).map (fun i => JvValue.number i))]
  | _ => .error "keys: input must be object or array"

/-- `builtins::values_builtin`. -/
def values_builtin (input : JvValue) : Except String (List JvValue) :=
  match input with
  | .obj o => .ok (o.map (fun kv => kv.2))
  | .arr a => .ok a
  | _ => .error "values: input must be object or array"

/-- `builtins::type_builtin`. -/
def type_builtin (input : JvValue) : Except String (List JvValue) :=
  match input with
  | .null => .ok [.str "null"]
  | .boolean _ => .ok [.str "boolean"]
  | .number _ => .ok [.str "number"]
  | .str _ => .ok [.str "string"]
  | .arr _ => .ok [.str "array"]
  | .obj _ => .ok [.str "object"]

/-- `builtins::length_builtin`: byte length for strings, element count for
arrays/objects, 0 for everything else. -/
def length_builtin (input : JvValue) : Except String (List JvValue) :=
  match input with
  | .str s => .ok [.number (s.utf8ByteSize : Rat)]
  | .arr a => .ok [.number (a.length : Rat)]
  | .obj o => .ok [.number (o.length : Rat)]
  | _ => .ok [.number 0]

/-- `builtins::empty_builtin`: appends nothing to its outputs vector. -/
def empty_builtin (input : JvValue) : Except String (List JvValue) :=
  .ok []

/-- `builtins::reverse_builtin`.  The C++ reverses the bytes of a
`std::string`; this is modelled as reversing the character sequence, which
agrees on ASCII data. -/
def reverse_builtin (input : JvValue) : Except String (List JvValue) :=
  match input with
  | .str s => .ok [.str (String.mk s.data.reverse)]
  | .arr a => .ok [.arr a.reverse]
  | _ => .error "reverse: input must be string or array"

/-- The type rank used by the comparator in `builtins::sort_builtin`
(null 0, boolean 1, number 2, string 3, array 4, object 5; the C++ fallback
rank 6 is unreachable because the `if` chain is exhaustive). -/
def type_order (v : JvValue) : Nat :=
  match v with
  | .null => 0
  | .boolean _ => 1
  | .number _ => 2
  | .str _ => 3
  | .arr _ => 4
  | .obj _ => 5

/-- The comparator lambda passed to `std::sort` in `builtins::sort_builtin`:
two numbers compare by numeric value, two strings by string value, and any
other pair by type rank. -/
def jv_cmp (a b : JvValue) : Bool :=
  match a, b with
  | .number x, .number y => decide (x < y)
  | .str x, .str y => decide (x < y)
  | _, _ => decide (type_order a < type_order b)

/-- The non-strict order induced by the sort comparator: `a` may sit before
`b` in a sorted output iff `b` does not compare strictly before `a`. -/
def jv_le (a b : JvValue) : Prop := jv_cmp b a = false

instance : DecidableRel jv_le := fun a b => by
  unfold jv_le; infer_instance

/-- The sort comparator is asymmetric: no two values compare strictly before
each other. -/
theorem jv_cmp_asymm (a b : JvValue) (h : jv_cmp a b = true) : jv_cmp b a = false := by
  cases a <;> cases b <;>
    simp_all [jv_cmp, type_order, decide_eq_true_eq, decide_eq_false_iff_not] <;>
    first
      | omega
      | exact le_of_lt h

instance : IsTotal JvValue jv_le := by
  constructor
  intro a b
  cases hcb : jv_cmp b a with
  | false => exact Or.inl hcb
  | true => exact Or.inr (jv_cmp_asymm b a hcb)

instance : IsTrans JvValue jv_le := by
  constructor
  intro a b c hab hbc
  unfold jv_le at *
  cases a <;> cases b <;> cases c <;>
    simp_all [jv_cmp, type_order, decide_eq_false_iff_not, not_lt] <;>
    first
      | omega
      | exact le_trans hab hbc

/-- Everything the C++ standard guarantees about
`std::sort(first, last, cmp)`: the output is a permutation of the input that
is ordered by the comparator (no element compares strictly before its
predecessor).  The relative order of elements the comparator treats as
equivalent is left unspecified — `std::sort` is NOT a stable sort. -/
def std_sort_result (cmp : JvValue → JvValue → Bool) (l l' : List JvValue) : Prop :=
  List.Perm l' l ∧ l'.Pairwise (fun a b => cmp b a = false)

/-- `builtins::sort_builtin`: arrays only.  The C++ sorts a copy of the
elements with `std::sort` under the comparator `jv_cmp`; since only
`std_sort_result jv_cmp` is guaranteed and the tie order is unspecified, an
executable model must pick one conforming implementation — here an insertion
sort by the same comparator.  Theorems about `sort` assert only the
contract-level properties (`std_sort_result`), never the tie order this
particular choice happens to produce. -/
def sort_builtin (input : JvValue) : Except String (List JvValue) :=
  match input with
  | .arr elems => .ok [.arr (List.insertionSort jv_le elems)]
  | _ => .error "sort: input must be array"

/-- `builtins::to_entries_builtin`: object → one array of
`{"key": k, "value": v}` objects in stored key order ("key" sorts before
"value" in the entry's own map). -/
def to_entries_builtin (input : JvValue) : Except String (List JvValue) :=
  match input with
  | .obj o =>
    .ok [.arr (o.map (fun kv => JvValue.obj [("key", .str kv.1), ("value", kv.2)]))]
  | _ => .error "to_entries: input must be object"

/-- `Builtins::call_builtin` after `init_builtins` has populated the default
registry (`jq_builtins.cpp`): dispatch by exact name, unknown names error. -/
def call_builtin (name : String) (input : JvValue) : Except String (List JvValue) :=
  match name with
  | "keys" => keys_builtin input
  | "values" => values_builtin input
  | "type" => type_builtin input
  | "length" => length_builtin input
  | "empty" => empty_builtin input
  | "reverse" => reverse_builtin input
  | "sort" => sort_builtin input
  | "to_entries" => to_entries_builtin input
  | _ => .error ("Unknown builtin: " ++ name)

/-- The opcode enumeration of `jq_bytecode.hpp`. -/
inductive OpCode where
  | NOP
  | LOAD_IDENTITY
  | GET_FIELD
  | GET_INDEX_NUM
  | GET_INDEX_STR
  | ITERATE
  | ADD_CONST
  | LENGTH
  | BUILTIN_CALL
deriving DecidableEq

/-- An instruction `{op, a, b}`; `a` and `b` are `int32_t` operands, `-1`
when unused (operand arithmetic never approaches the 32-bit range in any
reachable program, so they are modelled as unbounded integers). -/
structure Instruction where
  op : OpCode
  a : Int
  b : Int

/-- The constant pool: a vector of strings and a vector of numbers. -/
structure ConstantPool where
  strings : List String
  numbers : List Rat

/-- `ConstantPool::add_string`: push and return the new entry's index
(`size - 1` after the push, i.e. the old size). -/
def ConstantPool.add_string (p : ConstantPool) (s : String) : ConstantPool × Int :=
  (⟨p.strings ++ [s], p.numbers⟩, (p.strings.length : Int))

/-- `ConstantPool::add_number`. -/
def ConstantPool.add_number (p : ConstantPool) (v : Rat) : ConstantPool × Int :=
  (⟨p.strings, p.numbers ++ [v]⟩, (p.numbers.length : Int))

/-- A compiled program: instruction vector plus constant pool. -/
structure Program where
  code : List Instruction
  pool : ConstantPool

/-- The loop body of `Program::validate`, carrying the program counter `i`
used in error messages.  Only `GET_FIELD`/`GET_INDEX_STR` (strings pool) and
`GET_INDEX_NUM`/`ADD_CONST` (numbers pool) are range-checked; every other
opcode — including `BUILTIN_CALL` — falls to the `default:` arm. -/
def validate_from (pool : ConstantPool) (i : Nat) : List Instruction → Except String Unit
  | [] => .ok ()
  | ins :: rest =>
    match ins.op with
    | .GET_FIELD | .GET_INDEX_STR =>
      if ins.a < 0 ∨ pool.strings.length ≤ ins.a.toNat then
        .error ("Invalid string pool index in instruction at pc=" ++ toString i)
      else
        validate_from pool (i + 1) rest
    | .GET_INDEX_NUM | .ADD_CONST =>
      if ins.a < 0 ∨ pool.numbers.length ≤ ins.a.toNat then
        .error ("Invalid number pool index in instruction at pc=" ++ toString i)
      else
        validate_from pool (i + 1) rest
    | _ => validate_from pool (i + 1) rest

/-- `Program::validate`. -/
def Program.validate (prog : Program) : Except String Unit :=
  validate_from prog.pool 0 prog.code

/-- Reading `prog.pool.strings[ins.a]` in the executor.  The C++ access is
unchecked (`std::vector::operator[]`), so an out-of-range read is undefined
behaviour; it is modelled by a default value.  Compiler-produced programs
never reach it out of range (see the pool-validity invariant below). -/
def pool_string (pool : ConstantPool) (a : Int) : String :=
  pool.strings.getD a.toNat ""

/-- Reading `prog.pool.numbers[ins.a]` in the executor; same remark as for
`pool_string`. -/
def pool_number (pool : ConstantPool) (a : Int) : Rat :=
  pool.numbers.getD a.toNat 0

/-- The `LENGTH` opcode's replacement for the current value
(`Executor::exec_range`): byte length of a string, element count of an
array or object, 0 otherwise. -/
def length_value (cur : JvValue) : JvValue :=
  match cur with
  | .str s => .number (s.utf8ByteSize : Rat)
  | .arr a => .number (a.length : Rat)
  | .obj o => .number (o.length : Rat)
  | _ => .number 0

/-- `Executor::exec_range` (`jq_executor.cpp`), walking the remaining
instruction list with the current value register and the accumulated
outputs.  `ITERATE` appends the array's elements (or the current value) to
the outputs and returns at once; `BUILTIN_CALL` replaces the current value
with the builtin's first output (Null if none) and appends the rest; when
the loop finishes, the current value is appended as the final output.  The
unhandled `NOP` opcode falls to the `default:` arm and fails with
"Unknown opcode". -/
def exec_range (pool : ConstantPool) : List Instruction → JvValue → List JvValue → Except String (List JvValue)
  | [], cur, outputs => .ok (outputs ++ [cur])
  | ins :: rest, cur, outputs =>
    match ins.op with
    | .LOAD_IDENTITY => exec_range pool rest cur outputs
    | .GET_FIELD =>
      if cur.is_object then
        exec_range pool rest (cur.object_get (pool_string pool ins.a)) outputs
      else
        exec_range pool rest JvValue.null outputs
    | .GET_INDEX_STR =>
      if cur.is_object then
        exec_range pool rest (cur.object_get (pool_string pool ins.a)) outputs
      else
        exec_range pool rest JvValue.null outputs
    | .GET_INDEX_NUM =>
      if cur.is_array then
        exec_range pool rest (cur.array_index (rat_to_size_t (pool_number pool ins.a))) outputs
      else
        exec_range pool rest JvValue.null outputs
    | .ITERATE =>
      match cur with
      | .arr elems => .ok (outputs ++ elems)
      | _ => .ok (outputs ++ [cur])
    | .ADD_CONST =>
      if cur.is_number then
        exec_range pool rest (.number (cur.num_val + pool_number pool ins.a)) outputs
      else
        exec_range pool rest JvValue.null outputs
    | .LENGTH => exec_range pool rest (length_value cur) outputs
    | .BUILTIN_CALL =>
      match call_builtin (pool_string pool ins.a) cur with
      | .error e => .error e
      | .ok [] => exec_range pool rest JvValue.null outputs
      | .ok (b0 :: brest) => exec_range pool rest b0 (outputs ++ brest)
    | .NOP => .error "Unknown opcode"

/-- `Executor::execute`: clear the outputs and run the whole instruction
vector. -/
def Executor.execute (prog : Program) (input : JvValue) : Except String (List JvValue) :=
  exec_range prog.pool prog.code input []

/-- The AST node kinds of `jq_parser.hpp`. -/
inductive NodeType where
  | LITERAL
  | IDENTITY
  | FIELD
  | INDEX
  | SLICE
  | ITERATOR
  | RECURSIVE
  | PIPE
  | COMMA
  | BINARY_OP
  | UNARY_OP
  | FUNCTION_CALL
  | ARRAY
  | OBJECT
  | CONDITIONAL
  | TRY
  | ALTERNATIVE
deriving DecidableEq

/-- The `jq::ASTNode` record: a node kind plus the payload fields the
compiler reads (`literal`, `name`, `op`, `children`).  The conditional
branch pointers are never read by `Compiler::emit_node` and are omitted. -/
inductive ASTNode where
  | mk (type : NodeType) (literal : Option JvValue) (name : String) (op : String)
      (children : List ASTNode)

/-- `Compiler::emit_node` (`jq_compiler.cpp`): lower one AST node, appending
instructions and pool entries to the program built so far.  The C++ null
node guard (`Null AST node`) corresponds to no constructible value here; the
parser never produces null children. -/
def emit_node : ASTNode → Program → Except String Program
  | .mk t _lit nm op children, prog =>
    match t with
    | .IDENTITY =>
      .ok ⟨prog.code ++ [⟨.LOAD_IDENTITY, -1, -1⟩], prog.pool⟩
    | .FIELD =>
      let r := prog.pool.add_string nm
      .ok ⟨prog.code ++ [⟨.GET_FIELD, r.2, -1⟩], r.1⟩
    | .INDEX =>
      match children with
      | [] => .error "Index node missing child"
      | idx :: _ =>
        match idx with
        | .mk .LITERAL (some (.number q)) _ _ _ =>
          let r := prog.pool.add_number q
          .ok ⟨prog.code ++ [⟨.GET_INDEX_NUM, r.2, -1⟩], r.1⟩
        | .mk .LITERAL (some (.str s)) _ _ _ =>
          let r := prog.pool.add_string s
          .ok ⟨prog.code ++ [⟨.GET_INDEX_STR, r.2, -1⟩], r.1⟩
        | _ => .error "Unsupported index expression"
    | .ITERATOR =>
      .ok ⟨prog.code ++ [⟨.ITERATE, -1, -1⟩], prog.pool⟩
    | .PIPE =>
      match children with
      | [l, r] =>
        match emit_node l prog with
        | .error e => .error e
        | .ok prog1 => emit_node r prog1
      | _ => .error "Pipe expects 2 children"
    | .BINARY_OP =>
      match children with
      | [l, r] =>
        if op = "+" then
          match emit_node l prog with
          | .error e => .error e
          | .ok prog1 =>
            match r with
            | .mk .LITERAL (some (.number q)) _ _ _ =>
              let rr := prog1.pool.add_number q
              .ok ⟨prog1.code ++ [⟨.ADD_CONST, rr.2, -1⟩], rr.1⟩
            | _ => .error "Unsupported binary op"
        else .error "Unsupported binary op"
      | _ => .error "Unsupported binary op"
    | .FUNCTION_CALL =>
      let r := prog.pool.add_string nm
      .ok ⟨prog.code ++ [⟨.BUILTIN_CALL, r.2, -1⟩], r.1⟩
    | _ => .error "Unsupported AST node type"

/-- `Compiler::compile`: start from cleared code and pools, lower the AST,
then run `Program::validate`. -/
def Compiler.compile (ast : ASTNode) : Except String Program :=
  match emit_node ast ⟨[], ⟨[], []⟩⟩ with
  | .error e => .error e
  | .ok prog =>
    match prog.validate with
    | .error e => .error e
    | .ok _ => .ok prog

/-- `JvValue::from_string` (`jq_types.cpp`), parameterised by the external
DOM parser (`parse_json_dom` composed with `from_json_value`, which converts
a DOM tree into a `JvValue` and never returns a null pointer).  On a parse
failure the error message is written and `JvValue::null()` — a NON-null
pointer to a Null value — is returned; the function never returns a null
pointer (the `Option` models the C++ `shared_ptr` being null). -/
def JvValue.from_string (parse_json_dom : String → Except String JvValue)
    (json_text : String) : Option JvValue × String :=
  match parse_json_dom json_text with
  | .error e => (some JvValue.null, e)
  | .ok v => (some v, "")

/-- `Engine::compile` (`jq_engine.cpp`), parameterised by the lexer+parser
front end (`parse_filter` returns the parsed AST, or none when
`Parser::parse` returns null).  An empty filter is rejected up front; a
parse failure yields the fixed message "Failed to parse jq filter"; then
`Compiler::compile` runs. -/
def Engine.compile (parse_filter : String → Option ASTNode) (filter : String) :
    Except String Program :=
  if filter = "" then .error "jq filter cannot be empty"
  else
    match parse_filter filter with
    | none => .error "Failed to parse jq filter"
    | some ast => Compiler.compile ast

/-- `Engine::run_streaming`: compile the filter, parse the JSON input via
`JvValue::from_string`, execute, and serialize every output.  The result
triple models `(return value, json_outputs, err)`; `err` is the last message
written to the caller's `err` out-parameter (note that a parse message can
be left in `err` even when the function returns `true`). -/
def Engine.run_streaming (parse_filter : String → Option ASTNode)
    (parse_json_dom : String → Except String JvValue)
    (filter json_in : String) : Bool × List String × String :=
  match Engine.compile parse_filter filter with
  | .error e => (false, [], e)
  | .ok prog =>
    let fs := JvValue.from_string parse_json_dom json_in
    match fs.1 with
    | none => (false, [], "Invalid JSON input")
    | some jv =>
      match Executor.execute prog jv with
      | .error e => (false, [], e)
      | .ok outs => (true, outs.map JvValue.to_string, fs.2)

/-- `Engine::run`: first streamed output, or "null" when the stream is
empty. -/
def Engine.run (parse_filter : String → Option ASTNode)
    (parse_json_dom : String → Except String JvValue)
    (filter json_in : String) : Bool × String × String :=
  match Engine.run_streaming parse_filter parse_json_dom filter json_in with
  | (false, _, e) => (false, "", e)
  | (true, outs, e) => (true, outs.headD "null", e)

/-- The AST of the filter `empty`: a bare identifier is parsed as a
parameterless `FunctionCall` node. -/
def empty_filter : ASTNode := .mk .FUNCTION_CALL none "empty" "" []

/-- The program `Compiler::compile` produces for the filter `empty`. -/
def empty_program : Program := ⟨[⟨.BUILTIN_CALL, 0, -1⟩], ⟨["empty"], []⟩⟩

/-- The AST of the filter `.k`: a bare `Field` node carrying the key. -/
def field_filter (k : String) : ASTNode := .mk .FIELD none k "" []

/-- The program `Compiler::compile` produces for the filter `.k`. -/
def field_program (k : String) : Program := ⟨[⟨.GET_FIELD, 0, -1⟩], ⟨[k], []⟩⟩

/-- The AST of the filter `.[0]`: an `Index` node whose child is the numeric
literal 0. -/
def index_zero_filter : ASTNode :=
  .mk .INDEX none "" "" [.mk .LITERAL (some (.number 0)) "" "" []]

/-- The program `Compiler::compile` produces for the filter `.[0]`. -/
def index_zero_program : Program := ⟨[⟨.GET_INDEX_NUM, 0, -1⟩], ⟨[], [0]⟩⟩

/-- The range condition `Program::validate` actually enforces on one
instruction: in-range string pool operand for `GET_FIELD`/`GET_INDEX_STR`,
in-range number pool operand for `GET_INDEX_NUM`/`ADD_CONST`, nothing for
any other opcode. -/
def validate_pred (pool : ConstantPool) (ins : Instruction) : Prop :=
  ((ins.op = .GET_FIELD ∨ ins.op = .GET_INDEX_STR) →
    0 ≤ ins.a ∧ ins.a.toNat < pool.strings.length) ∧
  ((ins.op = .GET_INDEX_NUM ∨ ins.op = .ADD_CONST) →
    0 ≤ ins.a ∧ ins.a.toNat < pool.numbers.length)

/-- Validity of every pool reference an instruction makes when the executor
interprets it: `GET_FIELD`, `GET_INDEX_STR` and `BUILTIN_CALL` read the
strings pool, `GET_INDEX_NUM` and `ADD_CONST` read the numbers pool. -/
def pool_refs_valid (pool : ConstantPool) (ins : Instruction) : Prop :=
  ((ins.op = .GET_FIELD ∨ ins.op = .GET_INDEX_STR ∨ ins.op = .BUILTIN_CALL) →
    0 ≤ ins.a ∧ ins.a.toNat < pool.strings.length) ∧
  ((ins.op = .GET_INDEX_NUM ∨ ins.op = .ADD_CONST) →
    0 ≤ ins.a ∧ ins.a.toNat < pool.numbers.length)

/-- A program whose only instruction is a `BUILTIN_CALL` with string pool
operand 7 while the strings pool is empty. -/
def bad_builtin_program : Program := ⟨[⟨.BUILTIN_CALL, 7, -1⟩], ⟨[], []⟩⟩

/-- The AST of the identity filter `.`. -/
def identity_filter : ASTNode := .mk .IDENTITY none "" "" []

/-- The program `Compiler::compile` produces for the filter `.`. -/
def identity_program : Program := ⟨[⟨.LOAD_IDENTITY, -1, -1⟩], ⟨[], []⟩⟩

/-- The AST of the filter `.a | keys`. -/
def pipe_field_keys_filter : ASTNode :=
  .mk .PIPE none "" "" [.mk .FIELD none "a" "" [], .mk .FUNCTION_CALL none "keys" "" []]

/-- The program `Compiler::compile` produces for the filter `.a | keys`. -/
def pipe_field_keys_program : Program :=
  ⟨[⟨.GET_FIELD, 0, -1⟩, ⟨.BUILTIN_CALL, 1, -1⟩], ⟨["a", "keys"], []⟩⟩

/-- Claim C1 (counterexample): the claim says a program compiled from the
filter `empty` yields zero outputs on every input, but on the input `5` the
compiled program yields exactly one output, `Null` — the `empty` builtin
appends nothing, so the executor's final `outputs.push_back(current)` pushes
the Null that replaced the current value. -/
theorem c1_empty_counterexample :
    Compiler.compile empty_filter = .ok empty_program ∧
    Executor.execute empty_program (JvValue.number 5) = .ok [JvValue.null] ∧
    ¬ Executor.execute empty_program (JvValue.number 5) = .ok [] := by
  refine ⟨rfl, rfl, ?_⟩
  intro h
  have heq : (Except.ok [JvValue.null] : Except String (List JvValue)) = .ok [] := by
    rw [← h]
    rfl
  simp at heq

/-- Claim C1 (amended): for every input value, executing a program compiled
from the filter `empty` yields exactly one output, `Null` (the builtin
itself produces no outputs, and the executor then appends the final current
value, which has become Null). -/
theorem c1_empty_amended (input : JvValue) :
    Compiler.compile empty_filter = .ok empty_program ∧
    Executor.execute empty_program input = .ok [JvValue.null] :=
  ⟨rfl, rfl⟩

/-- Claim C3: on reaching an `ITERATE` instruction, an array current value
has every element appended to the outputs in array order and execution
returns at once — the result does not depend on the instructions after the
`ITERATE`, so they are never executed; a non-array current value is appended
exactly once, likewise returning. -/
theorem c3_iterate_terminal (pool : ConstantPool) (a b : Int)
    (rest : List Instruction) (cur : JvValue) (outputs : List JvValue) :
    (∀ l, cur = .arr l →
      exec_range pool (⟨.ITERATE, a, b⟩ :: rest) cur outputs = .ok (outputs ++ l)) ∧
    (cur.is_array = false →
      exec_range pool (⟨.ITERATE, a, b⟩ :: rest) cur outputs = .ok (outputs ++ [cur])) := by
  constructor
  · intro l h
    subst h
    rfl
  · intro h
    cases cur <;> simp_all [JvValue.is_array, exec_range]

/-- Claim C3 (witness): with instructions following the `ITERATE` (here a
`LENGTH`), iterating `[1,2]` emits both elements and stops — the trailing
instruction is ignored — and iterating the non-array `7` emits `7` once. -/
theorem c3_iterate_terminal_witness :
    exec_range ⟨[], []⟩ [⟨.ITERATE, -1, -1⟩, ⟨.LENGTH, -1, -1⟩]
      (.arr [.number 1, .number 2]) [] = .ok [.number 1, .number 2] ∧
    exec_range ⟨[], []⟩ [⟨.ITERATE, -1, -1⟩] (.number 7) [] = .ok [.number 7] :=
  ⟨(c3_iterate_terminal ⟨[], []⟩ (-1) (-1) [⟨.LENGTH, -1, -1⟩]
      (.arr [.number 1, .number 2]) []).1 [.number 1, .number 2] rfl,
   (c3_iterate_terminal ⟨[], []⟩ (-1) (-1) [] (.number 7) []).2 rfl⟩

/-- Claim C4: for every non-object value `v` and every key `k`, compiling
the filter `.k` succeeds and executing it on `v` yields exactly one output,
`Null`; for every non-array value `w`, compiling `.[0]` succeeds and
executing it on `w` yields exactly one output, `Null` — structural access
never fails. -/
theorem c4_null_propagation (v : JvValue) (k : String) (w : JvValue)
    (hv : v.is_object = false) (hw : w.is_array = false) :
    Compiler.compile (field_filter k) = .ok (field_program k) ∧
    Executor.execute (field_program k) v = .ok [JvValue.null] ∧
    Compiler.compile index_zero_filter = .ok index_zero_program ∧
    Executor.execute index_zero_program w = .ok [JvValue.null] := by
  refine ⟨rfl, ?_, rfl, ?_⟩
  · cases v <;> simp_all [JvValue.is_object, Executor.execute, exec_range, field_program]
  · cases w <;> simp_all [JvValue.is_array, Executor.execute, exec_range, index_zero_program]

/-- Claim C4 (witness): `.k` on the number 1 and `.[0]` on the string "s"
each yield exactly the output `Null`. -/
theorem c4_null_propagation_witness :
    Compiler.compile (field_filter "k") = .ok (field_program "k") ∧
    Executor.execute (field_program "k") (.number 1) = .ok [JvValue.null] ∧
    Compiler.compile index_zero_filter = .ok index_zero_program ∧
    Executor.execute index_zero_program (.str "s") = .ok [JvValue.null] :=
  c4_null_propagation (.number 1) "k" (.str "s") rfl rfl

/-- An instruction whose opcode is range-checked against neither pool
satisfies the enforced range condition vacuously. -/
theorem validate_pred_of_unchecked {pool : ConstantPool} {a b : Int} {op : OpCode}
    (h1 : (op = .GET_FIELD ∨ op = .GET_INDEX_STR) → False)
    (h2 : (op = .GET_INDEX_NUM ∨ op = .ADD_CONST) → False) :
    validate_pred pool ⟨op, a, b⟩ :=
  ⟨fun h => absurd h h1, fun h => absurd h h2⟩

/-- A strings-pool-checked instruction with an in-range operand satisfies
the enforced range condition. -/
theorem validate_pred_of_strings {pool : ConstantPool} {a b : Int} {op : OpCode}
    (hin : 0 ≤ a ∧ a.toNat < pool.strings.length)
    (h2 : (op = .GET_INDEX_NUM ∨ op = .ADD_CONST) → False) :
    validate_pred pool ⟨op, a, b⟩ :=
  ⟨fun _ => hin, fun h => absurd h h2⟩

/-- A numbers-pool-checked instruction with an in-range operand satisfies
the enforced range condition. -/
theorem validate_pred_of_numbers {pool : ConstantPool} {a b : Int} {op : OpCode}
    (hin : 0 ≤ a ∧ a.toNat < pool.numbers.length)
    (h1 : (op = .GET_FIELD ∨ op = .GET_INDEX_STR) → False) :
    validate_pred pool ⟨op, a, b⟩ :=
  ⟨fun h => absurd h h1, fun _ => hin⟩

/-- Peeling a head instruction known to satisfy the range condition off a
"all instructions valid" statement. -/
theorem forall_cons_iff_of_head {pool : ConstantPool} {ins : Instruction}
    {rest : List Instruction} (hhead : validate_pred pool ins) :
    (∀ i ∈ ins :: rest, validate_pred pool i) ↔ (∀ i ∈ rest, validate_pred pool i) := by
  simp only [List.mem_cons, forall_eq_or_imp]
  exact ⟨fun h => h.2, fun h => ⟨hhead, h⟩⟩

/-- `validate_from` accepts a suffix of the code exactly when every
instruction in it satisfies the enforced range condition; the program
counter argument only feeds the error message. -/
theorem validate_from_ok_iff (pool : ConstantPool) :
    ∀ (code : List Instruction) (i : Nat),
      validate_from pool i code = .ok () ↔ ∀ ins ∈ code, validate_pred pool ins
  | [], i => by simp [validate_from]
  | ins :: rest, i => by
    have ih := validate_from_ok_iff pool rest (i + 1)
    rcases ins with ⟨op, a, b⟩
    cases op with
    | GET_FIELD =>
      simp only [validate_from]
      split_ifs with h
      · constructor
        · intro hcon
          exact absurd hcon (by simp)
        · intro hall
          have hp : 0 ≤ a ∧ a.toNat < pool.strings.length :=
            (hall _ (List.mem_cons_self _ _)).1 (Or.inl rfl)
          exact absurd hp (by omega)
      · rw [ih]
        exact (forall_cons_iff_of_head (validate_pred_of_strings (by omega)
          (by rintro (hh | hh) <;> exact nomatch hh))).symm
    | GET_INDEX_STR =>
      simp only [validate_from]
      split_ifs with h
      · constructor
        · intro hcon
          exact absurd hcon (by simp)
        · intro hall
          have hp : 0 ≤ a ∧ a.toNat < pool.strings.length :=
            (hall _ (List.mem_cons_self _ _)).1 (Or.inr rfl)
          exact absurd hp (by omega)
      · rw [ih]
        exact (forall_cons_iff_of_head (validate_pred_of_strings (by omega)
          (by rintro (hh | hh) <;> exact nomatch hh))).symm
    | GET_INDEX_NUM =>
      simp only [validate_from]
      split_ifs with h
      · constructor
        · intro hcon
          exact absurd hcon (by simp)
        · intro hall
          have hp : 0 ≤ a ∧ a.toNat < pool.numbers.length :=
            (hall _ (List.mem_cons_self _ _)).2 (Or.inl rfl)
          exact absurd hp (by omega)
      · rw [ih]
        exact (forall_cons_iff_of_head (validate_pred_of_numbers (by omega)
          (by rintro (hh | hh) <;> exact nomatch hh))).symm
    | ADD_CONST =>
      simp only [validate_from]
      split_ifs with h
      · constructor
        · intro hcon
          exact absurd hcon (by simp)
        · intro hall
          have hp : 0 ≤ a ∧ a.toNat < pool.numbers.length :=
            (hall _ (List.mem_cons_self _ _)).2 (Or.inr rfl)
          exact absurd hp (by omega)
      · rw [ih]
        exact (forall_cons_iff_of_head (validate_pred_of_numbers (by omega)
          (by rintro (hh | hh) <;> exact nomatch hh))).symm
    | NOP =>
      simp only [validate_from]
      rw [ih]
      exact (forall_cons_iff_of_head (validate_pred_of_unchecked
        (by rintro (hh | hh) <;> exact nomatch hh)
        (by rintro (hh | hh) <;> exact nomatch hh))).symm
    | LOAD_IDENTITY =>
      simp only [validate_from]
      rw [ih]
      exact (forall_cons_iff_of_head (validate_pred_of_unchecked
        (by rintro (hh | hh) <;> exact nomatch hh)
        (by rintro (hh | hh) <;> exact nomatch hh))).symm
    | ITERATE =>
      simp only [validate_from]
      rw [ih]
      exact (forall_cons_iff_of_head (validate_pred_of_unchecked
        (by rintro (hh | hh) <;> exact nomatch hh)
        (by rintro (hh | hh) <;> exact nomatch hh))).symm
    | LENGTH =>
      simp only [validate_from]
      rw [ih]
      exact (forall_cons_iff_of_head (validate_pred_of_unchecked
        (by rintro (hh | hh) <;> exact nomatch hh)
        (by rintro (hh | hh) <;> exact nomatch hh))).symm
    | BUILTIN_CALL =>
      simp only [validate_from]
      rw [ih]
      exact (forall_cons_iff_of_head (validate_pred_of_unchecked
        (by rintro (hh | hh) <;> exact nomatch hh)
        (by rintro (hh | hh) <;> exact nomatch hh))).symm

/-- Claim C5 (counterexample): `validate` accepts a program whose single
`BUILTIN_CALL` instruction carries string pool index 7 although the strings
pool is empty — the executor would read `strings[7]` for it — so validate
does not reject every program containing a pool-referencing instruction
with an out-of-range operand. -/
theorem c5_validate_counterexample :
    bad_builtin_program.validate = .ok () ∧
    ¬ (7 : Int).toNat < bad_builtin_program.pool.strings.length ∧
    Executor.execute bad_builtin_program JvValue.null = .error "Unknown builtin: " := by
  refine ⟨rfl, by decide, rfl⟩

/-- Claim C5 (amended): `validate` accepts a program exactly when every
`GET_FIELD`, `GET_INDEX_STR`, `GET_INDEX_NUM` and `ADD_CONST` instruction
carries an in-range operand for its pool; the operand of `BUILTIN_CALL`,
although it references the strings pool at execution time, is not checked. -/
theorem c5_validate_characterization (prog : Program) :
    prog.validate = .ok () ↔ ∀ ins ∈ prog.code, validate_pred prog.pool ins :=
  validate_from_ok_iff prog.pool prog.code 0

/-- Claim C5 (witness for the amended claim): a concrete in-range program is
accepted by `validate` via the characterization. -/
theorem c5_validate_characterization_witness :
    (Program.mk [⟨.GET_FIELD, 0, -1⟩] ⟨["x"], []⟩).validate = .ok () :=
  (c5_validate_characterization ⟨[⟨.GET_FIELD, 0, -1⟩], ⟨["x"], []⟩⟩).mpr
    (by
      intro ins hins
      rw [List.mem_singleton] at hins
      subst hins
      exact ⟨fun _ => by decide, fun hcon => by rcases hcon with hh | hh <;> exact nomatch hh⟩)

/-- Claim C6: for every object (a sorted-key entry list, the `std::map`
invariant), the `keys` builtin succeeds with exactly one output — the array
of the object's keys, which is in ascending sorted order — and the `length`
builtin run on the object produces exactly the length of that key array. -/
theorem c6_keys_length (o : List (String × JvValue))
    (hsorted : o.Pairwise (fun x y => x.1 < y.1)) :
    keys_builtin (.obj o) = .ok [.arr (o.map (fun kv => JvValue.str kv.1))] ∧
    (o.map Prod.fst).Pairwise (fun a b => a < b) ∧
    (o.map (fun kv => JvValue.str kv.1)).length = o.length ∧
    length_builtin (.obj o) = .ok [.number (o.length : Rat)] := by
  refine ⟨rfl, ?_, by simp, rfl⟩
  exact List.pairwise_map.mpr hsorted

/-- Claim C6 (witness): `keys` on the two-entry object with keys "a", "b". -/
theorem c6_keys_length_witness :
    keys_builtin (.obj [("a", JvValue.null), ("b", JvValue.boolean true)])
      = .ok [.arr [.str "a", .str "b"]] ∧
    (["a", "b"] : List String).Pairwise (fun a b => a < b) ∧
    ([JvValue.str "a", JvValue.str "b"] : List JvValue).length = 2 ∧
    length_builtin (.obj [("a", JvValue.null), ("b", JvValue.boolean true)])
      = .ok [.number ((2 : Nat) : Rat)] :=
  c6_keys_length [("a", JvValue.null), ("b", JvValue.boolean true)]
    (by
      refine List.pairwise_cons.mpr ⟨?_, List.pairwise_singleton _ _⟩
      intro y hy
      rcases List.mem_singleton.mp hy with rfl
      rw [String.lt_iff_toList_lt]
      decide)

/-- Claim C7 (counterexample): the claim asserts the `sort` output is a
STABLE sort, but the source calls `std::sort`, which guarantees only
`std_sort_result` and leaves the order of equivalent elements unspecified.
On the input `[true, false]` — two booleans, which the comparator ranks
equal — the output `[false, true]` satisfies everything `std::sort`
guarantees, yet it differs from the stable sort of that input (which keeps
`[true, false]`): the code does not ensure the claimed stability. -/
theorem c7_sort_counterexample :
    std_sort_result jv_cmp [JvValue.boolean true, JvValue.boolean false]
      [JvValue.boolean false, JvValue.boolean true] ∧
    List.insertionSort jv_le [JvValue.boolean true, JvValue.boolean false]
      = [JvValue.boolean true, JvValue.boolean false] ∧
    ¬ ([JvValue.boolean false, JvValue.boolean true]
        = [JvValue.boolean true, JvValue.boolean false]) := by
  refine ⟨⟨List.Perm.swap _ _ _, ?_⟩, rfl, by simp⟩
  refine List.pairwise_cons.mpr ⟨?_, List.pairwise_singleton _ _⟩
  intro y hy
  rcases List.mem_singleton.mp hy with rfl
  rfl

/-- Claim C7 (amended): on an array, the `sort` builtin succeeds with
exactly one output satisfying the `std::sort` contract under the source
comparator — a permutation of the elements ordered by the variant rank
null<bool<number<string<array<object, numbers by numeric value and strings
by string value; the relative order of equivalent elements (and hence
stability) is not guaranteed.  On every non-array input `sort` fails with an
error. -/
theorem c7_sort (l : List JvValue) (v : JvValue) (hv : v.is_array = false) :
    (∃ l', sort_builtin (.arr l) = .ok [.arr l'] ∧ std_sort_result jv_cmp l l') ∧
    sort_builtin v = .error "sort: input must be array" := by
  refine ⟨⟨List.insertionSort jv_le l, rfl, List.perm_insertionSort jv_le l, ?_⟩, ?_⟩
  · exact List.sorted_insertionSort jv_le l
  · cases v <;> simp_all [JvValue.is_array, sort_builtin]

/-- Claim C7 (witness): sorting `["b", 3, null]` gives the single output
`[null, 3, "b"]`, a sorted permutation per the `std::sort` contract, and
`sort` fails on the number 1. -/
theorem c7_sort_witness :
    sort_builtin (.arr [.str "b", .number 3, JvValue.null])
      = .ok [.arr [JvValue.null, .number 3, .str "b"]] ∧
    std_sort_result jv_cmp [.str "b", .number 3, JvValue.null]
      [JvValue.null, .number 3, .str "b"] ∧
    sort_builtin (.number 1) = .error "sort: input must be array" := by
  obtain ⟨⟨l', hok, hsp⟩, herr⟩ :=
    c7_sort [.str "b", .number 3, JvValue.null] (.number 1) rfl
  have heq : (Except.ok [JvValue.arr l'] : Except String (List JvValue))
      = .ok [.arr [JvValue.null, .number 3, .str "b"]] := by
    rw [← hok]
    rfl
  simp only [Except.ok.injEq, List.cons.injEq, JvValue.arr.injEq, and_true] at heq
  subst heq
  exact ⟨hok, hsp, herr⟩

/-- Claim C9: execution is deterministic — two executions of the same
compiled program on the same input value give equal output lists, and two
calls of `run_streaming` with the same filter and JSON input (and the same
front-end and DOM-parser collaborators) give equal results. -/
theorem c9_deterministic (prog : Program) (input : JvValue)
    (o1 o2 : List JvValue)
    (pf : String → Option ASTNode) (pj : String → Except String JvValue)
    (filter json_in : String) (r1 r2 : Bool × List String × String)
    (h1 : Executor.execute prog input = .ok o1)
    (h2 : Executor.execute prog input = .ok o2)
    (h3 : Engine.run_streaming pf pj filter json_in = r1)
    (h4 : Engine.run_streaming pf pj filter json_in = r2) :
    o1 = o2 ∧ r1 = r2 := by
  constructor
  · exact Except.ok.inj (h1.symm.trans h2)
  · exact h3.symm.trans h4

/-- Claim C9 (witness): the identity program on `null`, twice, and a full
`run_streaming` call, twice. -/
theorem c9_deterministic_witness :
    ([JvValue.null] : List JvValue) = [JvValue.null] ∧
    ((true, ["null"], "") : Bool × List String × String) = (true, ["null"], "") :=
  c9_deterministic identity_program JvValue.null [JvValue.null] [JvValue.null]
    (fun _ => some identity_filter) (fun _ => .ok JvValue.null) "." "null"
    (true, ["null"], "") (true, ["null"], "") rfl rfl rfl rfl

/-- Pool-reference validity only depends on the pool lengths and is
preserved when the pools grow. -/
theorem pool_refs_valid_mono {p q : ConstantPool} {ins : Instruction}
    (hs : p.strings.length ≤ q.strings.length)
    (hn : p.numbers.length ≤ q.numbers.length)
    (h : pool_refs_valid p ins) : pool_refs_valid q ins := by
  refine ⟨fun hop => ?_, fun hop => ?_⟩
  · have := h.1 hop
    omega
  · have := h.2 hop
    omega

/-- An instruction referencing no pool is trivially pool-valid. -/
theorem pool_refs_valid_of_unref {pool : ConstantPool} {a b : Int} {op : OpCode}
    (h1 : (op = .GET_FIELD ∨ op = .GET_INDEX_STR ∨ op = .BUILTIN_CALL) → False)
    (h2 : (op = .GET_INDEX_NUM ∨ op = .ADD_CONST) → False) :
    pool_refs_valid pool ⟨op, a, b⟩ :=
  ⟨fun h => absurd h h1, fun h => absurd h h2⟩

/-- A strings-referencing instruction whose operand is the index returned by
`add_string` is pool-valid for the extended pool. -/
theorem pool_refs_valid_new_string {p : ConstantPool} {s : String} {b : Int} {op : OpCode}
    (h2 : (op = .GET_INDEX_NUM ∨ op = .ADD_CONST) → False) :
    pool_refs_valid ⟨p.strings ++ [s], p.numbers⟩ ⟨op, (p.strings.length : Int), b⟩ := by
  refine ⟨fun _ => ?_, fun h => absurd h h2⟩
  show 0 ≤ (p.strings.length : Int) ∧
    ((p.strings.length : Int)).toNat < (p.strings ++ [s]).length
  simp only [List.length_append, List.length_singleton, Int.toNat_natCast]
  omega

/-- A numbers-referencing instruction whose operand is the index returned by
`add_number` is pool-valid for the extended pool. -/
theorem pool_refs_valid_new_number {p : ConstantPool} {v : Rat} {b : Int} {op : OpCode}
    (h1 : (op = .GET_FIELD ∨ op = .GET_INDEX_STR ∨ op = .BUILTIN_CALL) → False) :
    pool_refs_valid ⟨p.strings, p.numbers ++ [v]⟩ ⟨op, (p.numbers.length : Int), b⟩ := by
  refine ⟨fun h => absurd h h1, fun _ => ?_⟩
  show 0 ≤ (p.numbers.length : Int) ∧
    ((p.numbers.length : Int)).toNat < (p.numbers ++ [v]).length
  simp only [List.length_append, List.length_singleton, Int.toNat_natCast]
  omega

/-- Appending a pool-valid instruction (to possibly grown pools) preserves
pool validity of a whole code vector. -/
theorem pinv_extend {code : List Instruction} {p q : ConstantPool} {ins : Instruction}
    (hP : ∀ i ∈ code, pool_refs_valid p i)
    (hs : p.strings.length ≤ q.strings.length)
    (hn : p.numbers.length ≤ q.numbers.length)
    (hins : pool_refs_valid q ins) :
    ∀ i ∈ code ++ [ins], pool_refs_valid q i := by
  intro i hi
  rcases List.mem_append.mp hi with h | h
  · exact pool_refs_valid_mono hs hn (hP i h)
  · rcases List.mem_singleton.mp h with rfl
    exact hins

/-- The emission invariant: lowering any AST node onto a program whose
instructions are all pool-valid yields a program whose instructions are all
pool-valid, and the pools only grow. -/
theorem emit_node_pool_valid :
    ∀ (node : ASTNode) (prog prog' : Program),
      emit_node node prog = .ok prog' →
      (∀ ins ∈ prog.code, pool_refs_valid prog.pool ins) →
      ((∀ ins ∈ prog'.code, pool_refs_valid prog'.pool ins) ∧
        prog.pool.strings.length ≤ prog'.pool.strings.length ∧
        prog.pool.numbers.length ≤ prog'.pool.numbers.length) := by
  intro node prog
  induction node, prog using emit_node.induct <;> intro prog' hemit hP
  case case1 =>
    simp only [emit_node] at hemit
    injection hemit with h
    subst h
    refine ⟨pinv_extend hP (le_refl _) (le_refl _) (pool_refs_valid_of_unref ?_ ?_),
      le_refl _, le_refl _⟩
    · rintro (h | h | h) <;> exact nomatch h
    · rintro (h | h) <;> exact nomatch h
  case case2 =>
    simp only [emit_node, ConstantPool.add_string] at hemit
    injection hemit with h
    subst h
    exact ⟨pinv_extend hP (by simp) (by simp)
      (pool_refs_valid_new_string (by rintro (h | h) <;> exact nomatch h)),
      by simp, by simp⟩
  case case3 =>
    simp [emit_node] at hemit
  case case4 =>
    simp only [emit_node, ConstantPool.add_number] at hemit
    injection hemit with h
    subst h
    exact ⟨pinv_extend hP (by simp) (by simp)
      (pool_refs_valid_new_number (by rintro (h | h | h) <;> exact nomatch h)),
      by simp, by simp⟩
  case case5 =>
    simp only [emit_node, ConstantPool.add_string] at hemit
    injection hemit with h
    subst h
    exact ⟨pinv_extend hP (by simp) (by simp)
      (pool_refs_valid_new_string (by rintro (h | h) <;> exact nomatch h)),
      by simp, by simp⟩
  case case6 =>
    simp [emit_node] at hemit
  case case7 =>
    simp only [emit_node] at hemit
    injection hemit with h
    subst h
    refine ⟨pinv_extend hP (le_refl _) (le_refl _) (pool_refs_valid_of_unref ?_ ?_),
      le_refl _, le_refl _⟩
    · rintro (h | h | h) <;> exact nomatch h
    · rintro (h | h) <;> exact nomatch h
  case case8 =>
    rename_i l r e hl ihl
    simp [emit_node, hl] at hemit
  case case9 =>
    rename_i l r prog1 hl ihl ihr
    simp only [emit_node, hl] at hemit
    obtain ⟨hP1, hs1, hn1⟩ := ihl prog1 hl hP
    obtain ⟨hP2, hs2, hn2⟩ := ihr prog' hemit hP1
    exact ⟨hP2, le_trans hs1 hs2, le_trans hn1 hn2⟩
  case case10 =>
    simp [emit_node] at hemit
  case case11 =>
    rename_i l r e hl ihl
    simp [emit_node, hl] at hemit
  case case12 =>
    rename_i l prog1 hl q nm2 op2 ch2 ihl
    simp only [emit_node, hl, if_true, ConstantPool.add_number] at hemit
    injection hemit with h
    subst h
    obtain ⟨hP1, hs1, hn1⟩ := ihl prog1 hl hP
    refine ⟨pinv_extend hP1 (by simp) (by simp)
      (pool_refs_valid_new_number (by rintro (h | h | h) <;> exact nomatch h)),
      ?_, ?_⟩
    · exact le_trans hs1 (by simp)
    · exact le_trans hn1 (by simp)
  case case13 =>
    rename_i l r prog1 hl hx ihl
    simp [emit_node, hl] at hemit
  case case14 =>
    rename_i l r hop
    simp [emit_node, hop] at hemit
  case case15 =>
    simp [emit_node] at hemit
  case case16 =>
    simp only [emit_node, ConstantPool.add_string] at hemit
    injection hemit with h
    subst h
    exact ⟨pinv_extend hP (by simp) (by simp)
      (pool_refs_valid_new_string (by rintro (h | h) <;> exact nomatch h)),
      by simp, by simp⟩
  case case17 =>
    simp [emit_node] at hemit

/-- Claim C10: every program a successful `Compiler::compile` produces has
only pool-valid instructions — including `BUILTIN_CALL`, which `validate`
does not check — so every pool access the executor performs on a
compiler-produced program is in bounds. -/
theorem c10_compile_pool_valid (ast : ASTNode) (prog : Program)
    (h : Compiler.compile ast = .ok prog) :
    ∀ ins ∈ prog.code, pool_refs_valid prog.pool ins := by
  unfold Compiler.compile at h
  cases hemit : emit_node ast ⟨[], ⟨[], []⟩⟩ with
  | error e =>
    rw [hemit] at h
    simp at h
  | ok prog0 =>
    rw [hemit] at h
    simp only [] at h
    cases hval : prog0.validate with
    | error e =>
      rw [hval] at h
      simp at h
    | ok u =>
      rw [hval] at h
      simp at h
      subst h
      exact (emit_node_pool_valid ast ⟨[], ⟨[], []⟩⟩ prog0 hemit (by simp)).1

/-- Claim C10 (witness): the compiled `.a | keys` program, whose
`BUILTIN_CALL` operand 1 is in range for its two-string pool. -/
theorem c10_compile_pool_valid_witness :
    Compiler.compile pipe_field_keys_filter = .ok pipe_field_keys_program ∧
    (0 ≤ (1 : Int) ∧ (1 : Int).toNat < pipe_field_keys_program.pool.strings.length) :=
  ⟨rfl,
    (c10_compile_pool_valid pipe_field_keys_filter pipe_field_keys_program rfl
        ⟨.BUILTIN_CALL, 1, -1⟩
        (List.mem_cons_of_mem _ (List.mem_cons_self _ _))).1
      (Or.inr (Or.inr rfl))⟩

/-- Claim C2: when the external DOM parser rejects the JSON input,
`run_streaming` does NOT fail: `JvValue::from_string` returns a non-null
pointer to a Null value on parse failure, so the engine's `!jv` guard never
fires and the filter is executed against Null, returning success with
serialized outputs (the parser's message is merely left in the `err`
out-parameter).  `run` then succeeds likewise with the first output text. -/
theorem c2_run_streaming_parse_failure
    (parse_filter : String → Option ASTNode)
    (parse_json_dom : String → Except String JvValue)
    (filter json_in : String) (ast : ASTNode) (prog : Program)
    (msg : String) (outs : List JvValue)
    (hf : filter ≠ "")
    (hpf : parse_filter filter = some ast)
    (hc : Compiler.compile ast = .ok prog)
    (hj : parse_json_dom json_in = .error msg)
    (hex : Executor.execute prog JvValue.null = .ok outs) :
    Engine.run_streaming parse_filter parse_json_dom filter json_in
      = (true, outs.map JvValue.to_string, msg) ∧
    Engine.run parse_filter parse_json_dom filter json_in
      = (true, (outs.map JvValue.to_string).headD "null", msg) := by
  have hcomp : Engine.compile parse_filter filter = .ok prog := by
    unfold Engine.compile
    rw [if_neg hf, hpf]
    exact hc
  have hrs : Engine.run_streaming parse_filter parse_json_dom filter json_in
      = (true, outs.map JvValue.to_string, msg) := by
    unfold Engine.run_streaming JvValue.from_string
    rw [hcomp, hj]
    simp only
    rw [hex]
  refine ⟨hrs, ?_⟩
  unfold Engine.run
  rw [hrs]

/-- Claim C2 (witness): the identity filter with a rejected JSON input:
`run_streaming` returns success with the single output text "null" while
the parse message sits in `err`; `run` returns success with "null". -/
theorem c2_run_streaming_parse_failure_witness :
    Engine.run_streaming (fun _ => some identity_filter)
      (fun _ => .error "JSON parse error: unexpected token") "." "nope"
      = (true, ["null"], "JSON parse error: unexpected token") ∧
    Engine.run (fun _ => some identity_filter)
      (fun _ => .error "JSON parse error: unexpected token") "." "nope"
      = (true, "null", "JSON parse error: unexpected token") :=
  c2_run_streaming_parse_failure (fun _ => some identity_filter)
    (fun _ => .error "JSON parse error: unexpected token") "." "nope"
    identity_filter identity_program "JSON parse error: unexpected token"
    [JvValue.null] (by decide) rfl rfl rfl rfl

end JQ
